import Mathlib

/-!
Verification of the glyph-placement pipeline of the font-building utility
(`creat_font_001.py`, with an identical embedded copy in `create_font_002.py`).

The pipeline is shallowly embedded as follows.

* Glyph contour geometry is a list of rational points.  FontForge reports
  bounding boxes as floating-point quadruples; we model those coordinates as
  exact rationals, so the Python float floor-division `//` becomes
  `floorDivQ` (floor of the exact quotient) and the Python `int(...)` cast
  becomes `pyInt` (truncation toward zero).
* A glyph carries its contours, its advance width (`glyph.width`, an integer
  in FontForge) and the two stored side bearings that the script writes back.
  Per the data model of the design document, the advance width is fixed per
  font design and the bearings are stored metric fields.
* The external library operations used by the script (`boundingBox`,
  `psMat.scale` or `psMat.translate` composed with `glyph.transform`,
  `font.createChar`, outline import plus auto-trace) are modelled from their
  documented contracts: `boundingBox` of an empty outline is `(0,0,0,0)`
  (the FontForge convention), `createChar` registers a fresh empty glyph
  under the requested code point, and import and auto-trace produce the
  contours that an environment `Env` associates to the image path.
* `print` diagnostics are collected as lists of strings, and the Python
  `raise ValueError` in `center_and_align_glyph` becomes an
  `Except.error` that propagates through `processGlyphs` and `runMain`
  exactly as the uncaught exception aborts `main()` before any file is saved.
-/

namespace CreatFont

/-- Truncation toward zero, the behaviour of the Python `int(...)` cast on a
float value (modelled as an exact rational). -/
def pyInt (q : ℚ) : ℤ := if 0 ≤ q then ⌊q⌋ else ⌈q⌉

/-- Python floor division `a // b` on floats (modelled as exact rationals):
the floor of the exact quotient, returned as a rational value. -/
def floorDivQ (a b : ℚ) : ℚ := (⌊a / b⌋ : ℚ)

/-- Minimum of `a` and all elements of `l`. -/
def listMin (a : ℚ) (l : List ℚ) : ℚ := l.foldl min a

/-- Maximum of `a` and all elements of `l`. -/
def listMax (a : ℚ) (l : List ℚ) : ℚ := l.foldl max a

/-- Least x-coordinate of a contour point list; `0` for an empty outline,
matching the `(0,0,0,0)` bounding box FontForge reports for empty glyphs. -/
def minXOf : List (ℚ × ℚ) → ℚ
  | [] => 0
  | p :: rest => listMin p.1 (rest.map Prod.fst)

/-- Least y-coordinate of a contour point list (`0` for an empty outline). -/
def minYOf : List (ℚ × ℚ) → ℚ
  | [] => 0
  | p :: rest => listMin p.2 (rest.map Prod.snd)

/-- Greatest x-coordinate of a contour point list (`0` for an empty outline). -/
def maxXOf : List (ℚ × ℚ) → ℚ
  | [] => 0
  | p :: rest => listMax p.1 (rest.map Prod.fst)

/-- Greatest y-coordinate of a contour point list (`0` for an empty outline). -/
def maxYOf : List (ℚ × ℚ) → ℚ
  | [] => 0
  | p :: rest => listMax p.2 (rest.map Prod.snd)

/-- A glyph: contour geometry, advance width (`glyph.width`), and the two
stored side-bearing metrics written by the placement engine. -/
structure Glyph where
  contours : List (ℚ × ℚ)
  width : ℤ
  left_side_bearing : ℤ
  right_side_bearing : ℤ
deriving DecidableEq

/-- A font session: the metadata set by `create_font`, the FontForge font
ascent and descent, the em size (default advance width of a fresh glyph),
and the registered glyphs keyed by code point. -/
structure Font where
  fontname : String
  fullname : String
  familyname : String
  ascent : ℚ
  descent : ℚ
  em : ℤ
  glyphs : List (ℕ × Glyph)
deriving DecidableEq

/-- Component min_x of `glyph.boundingBox()`. -/
def Glyph.minX (g : Glyph) : ℚ := minXOf g.contours

/-- Component min_y of `glyph.boundingBox()`. -/
def Glyph.minY (g : Glyph) : ℚ := minYOf g.contours

/-- Component max_x of `glyph.boundingBox()`. -/
def Glyph.maxX (g : Glyph) : ℚ := maxXOf g.contours

/-- Component max_y of `glyph.boundingBox()`. -/
def Glyph.maxY (g : Glyph) : ℚ := maxYOf g.contours

/-- The call `glyph.boundingBox()`: the `(min_x, min_y, max_x, max_y)` quadruple. -/
def Glyph.boundingBox (g : Glyph) : ℚ × ℚ × ℚ × ℚ := (g.minX, g.minY, g.maxX, g.maxY)

/-- The matrix `psMat.scale(s)` applied to one point. -/
def psMatScale (s : ℚ) (p : ℚ × ℚ) : ℚ × ℚ := (s * p.1, s * p.2)

/-- The matrix `psMat.translate(dx, dy)` applied to one point. -/
def psMatTranslate (dx dy : ℚ) (p : ℚ × ℚ) : ℚ × ℚ := (p.1 + dx, p.2 + dy)

/-- The method `glyph.transform(m)`: apply a point transformation to every contour
point; metrics are untouched. -/
def Glyph.transform (g : Glyph) (m : ℚ × ℚ → ℚ × ℚ) : Glyph :=
  { g with contours := g.contours.map m }

/-- The function `scale_glyph`: scale the glyph geometry by the configured factor. -/
def scale_glyph (glyph : Glyph) (scaling_factor : ℚ) : Glyph :=
  glyph.transform (psMatScale scaling_factor)

/-- The local `glyph_width = max_x - min_x` of `center_and_align_glyph`. -/
def glyph_width (glyph : Glyph) : ℚ := glyph.maxX - glyph.minX

/-- The local `center_x_offset = (advance_width - glyph_width) // 2 - min_x`
of `center_and_align_glyph`. -/
def center_x_offset (glyph : Glyph) : ℚ :=
  floorDivQ ((glyph.width : ℚ) - glyph_width glyph) 2 - glyph.minX

/-- The message of the `ValueError` raised on an unrecognized alignment. -/
def invalidAlignmentMsg : String :=
  "Invalid alignment option. Use top or bottom."

/-- The completion message printed by `center_and_align_glyph`. -/
def alignMsg (alignment : String) (v : ℤ) : String :=
  "Glyph centered horizontally and aligned to the " ++ alignment ++
    " with a vertical offset of " ++ toString v ++ "."

/-- The translation and side-bearing writes of `center_and_align_glyph`,
shared by the two valid alignment branches: translate by
`(center_x_offset, y_offset)`, then store
`left_side_bearing = (advance_width - glyph_width) // 2` and
`right_side_bearing = advance_width - glyph_width - left_side_bearing`,
each cast through `int(...)`. -/
def placeWith (glyph : Glyph) (y_offset : ℚ) : Glyph :=
  let advance_width : ℤ := glyph.width
  let gw : ℚ := glyph_width glyph
  let moved := glyph.transform (psMatTranslate (center_x_offset glyph) y_offset)
  let left_side_bearing : ℚ := floorDivQ ((advance_width : ℚ) - gw) 2
  let right_side_bearing : ℚ := (advance_width : ℚ) - gw - left_side_bearing
  { moved with
      left_side_bearing := pyInt left_side_bearing
      right_side_bearing := pyInt right_side_bearing }

/-- The function `center_and_align_glyph(glyph, alignment, vertical_offset)`.  Returns the
glyph state after the call, the normal or error outcome, and the printed
diagnostics.  On an unrecognized alignment the `ValueError` is raised before
the translation and before either side-bearing write, so the entry glyph is
returned unchanged. -/
def center_and_align_glyph (font : Font) (glyph : Glyph) (alignment : String)
    (vertical_offset : ℤ) : Glyph × Except String Unit × List String :=
  if alignment = "bottom" then
    let y_offset : ℚ := -glyph.minY + (vertical_offset : ℚ)
    (placeWith glyph y_offset, Except.ok (), [alignMsg alignment vertical_offset])
  else if alignment = "top" then
    let total_height : ℚ := font.ascent + font.descent
    let y_offset : ℚ := (font.ascent - glyph.maxY) + (vertical_offset : ℚ)
    (placeWith glyph y_offset, Except.ok (), [alignMsg alignment vertical_offset])
  else
    (glyph, Except.error invalidAlignmentMsg, [])

/-- The glyph state after `center_and_align_glyph` returns or raises. -/
def placedGlyph (font : Font) (glyph : Glyph) (alignment : String)
    (vertical_offset : ℤ) : Glyph :=
  (center_and_align_glyph font glyph alignment vertical_offset).1

/-- The normal or error outcome of `center_and_align_glyph`. -/
def placeOutcome (font : Font) (glyph : Glyph) (alignment : String)
    (vertical_offset : ℤ) : Except String Unit :=
  (center_and_align_glyph font glyph alignment vertical_offset).2.1

/-- The filesystem and auto-trace environment: which image paths exist, and
the contours that outline import plus auto-trace produce for an image. -/
structure Env where
  fileExists : String → Bool
  traceContours : String → List (ℚ × ℚ)

/-- The method `font.createChar(unicode_int)`: return the registered glyph for the code
point, registering a fresh empty glyph (default advance width one em) when
none exists yet. -/
def Font.createChar (font : Font) (unicode_int : ℕ) : Font × Glyph :=
  match font.glyphs.lookup unicode_int with
  | some g => (font, g)
  | none =>
    let g : Glyph := ⟨[], font.em, 0, 0⟩
    ({ font with glyphs := font.glyphs ++ [(unicode_int, g)] }, g)

/-- Replace the glyph stored under a code point (in-place mutation of a
FontForge glyph seen through the owning font). -/
def Font.setGlyph (font : Font) (cp : ℕ) (g : Glyph) : Font :=
  { font with glyphs := font.glyphs.map (fun e => if e.1 = cp then (cp, g) else e) }

/-- Diagnostic for a missing image file. -/
def notFoundMsg (char : Char) : String :=
  "Image for character " ++ toString char ++ " not found. Skipping this glyph."

/-- Diagnostic for an auto-trace that produced no contours. -/
def emptyTraceMsg (char : Char) : String :=
  "The image for character " ++ toString char ++
    " was imported, but the autotrace did not create contours."

/-- Diagnostic for a successful import and auto-trace. -/
def tracedMsg (char : Char) : String :=
  "The image for character " ++ toString char ++
    " was imported and autotraced successfully."

/-- The importer `import_and_trace_glyph(font, char, image_path)`: create the glyph slot
for `ord(char)` first, then check the image path; on a missing file print a
diagnostic and return `None`, otherwise import and auto-trace the outlines
into the glyph and return it. -/
def import_and_trace_glyph (env : Env) (font : Font) (char : Char)
    (image_path : String) : Font × Option (ℕ × Glyph) × List String :=
  let unicode_int : ℕ := char.toNat
  let created := font.createChar unicode_int
  if env.fileExists image_path = false then
    (created.1, none, [notFoundMsg char])
  else
    let glyph : Glyph := { created.2 with contours := env.traceContours image_path }
    let font2 := created.1.setGlyph unicode_int glyph
    let msg := if glyph.contours.isEmpty then emptyTraceMsg char else tracedMsg char
    (font2, some (unicode_int, glyph), [msg])

/-- The configuration read by `main()` from `config.ini`. -/
structure Config where
  fontname : String
  fullname : String
  familyname : String
  scaling_factor : ℚ
  alignment : String
  vertical_offset : ℤ
  common_image_path : String
  sfd_path : String
  ttf_path : String
  glyphsSection : List (Char × String)
deriving DecidableEq

/-- The path `os.path.join(common_image_path, image_name)` for the relative names the
configuration maps characters to. -/
def imagePath (cfg : Config) (image_name : String) : String :=
  cfg.common_image_path ++ "/" ++ image_name

/-- The function `create_font(config)`: a fresh font carrying the configured metadata and
the FontForge defaults (ascent 800, descent 200, em 1000). -/
def create_font (cfg : Config) : Font :=
  { fontname := cfg.fontname
    fullname := cfg.fullname
    familyname := cfg.familyname
    ascent := 800
    descent := 200
    em := 1000
    glyphs := [] }

/-- The per-character loop of `main()`: import and trace each requested
character, and when a glyph was produced, scale it and place it; an
uncaught `ValueError` from placement aborts the whole loop. -/
def processGlyphs (env : Env) (cfg : Config) :
    Font → List (Char × String) → Except String Font
  | font, [] => Except.ok font
  | font, (char, image_name) :: rest =>
    match import_and_trace_glyph env font char (imagePath cfg image_name) with
    | (font1, none, _) => processGlyphs env cfg font1 rest
    | (font1, some cpg, _) =>
      let glyph1 := scale_glyph cpg.2 cfg.scaling_factor
      let font2 := font1.setGlyph cpg.1 glyph1
      match center_and_align_glyph font2 glyph1 cfg.alignment cfg.vertical_offset with
      | (glyph2, Except.ok _, _) => processGlyphs env cfg (font2.setGlyph cpg.1 glyph2) rest
      | (_, Except.error e, _) => Except.error e

/-- The observable result of a completed run: the final font session and the
output files written by `save_font_files`. -/
structure RunOutput where
  font : Font
  files : List String
deriving DecidableEq

/-- The function `save_font_files(font, sfd_path, ttf_path)`: the two files it writes. -/
def save_font_files (sfd_path ttf_path : String) : List String :=
  [sfd_path, ttf_path]

/-- The function `main()`: build the font, process every configured character, then save
the SFD and generate the TTF.  An uncaught placement error aborts the run
before `save_font_files` is reached. -/
def runMain (env : Env) (cfg : Config) : Except String RunOutput :=
  let font := create_font cfg
  match processGlyphs env cfg font cfg.glyphsSection with
  | Except.error e => Except.error e
  | Except.ok font1 => Except.ok ⟨font1, save_font_files cfg.sfd_path cfg.ttf_path⟩

/-- The output font files a run produced: none when the run aborted. -/
def filesWritten : Except String RunOutput → List String
  | Except.error _ => []
  | Except.ok r => r.files

/-- The glyph a finished run registered under a code point (`none` when the
run aborted or no glyph slot exists for the code point). -/
def registeredGlyph : Except String RunOutput → ℕ → Option Glyph
  | Except.error _, _ => none
  | Except.ok r, cp => r.font.glyphs.lookup cp

/-! ## Infrastructure lemmas -/

theorem pyInt_intCast (n : ℤ) : pyInt (n : ℚ) = n := by
  unfold pyInt
  split
  · exact Int.floor_intCast n
  · exact Int.ceil_intCast n

theorem listMin_map_add (l : List ℚ) (a c : ℚ) :
    listMin (a + c) (l.map (fun x => x + c)) = listMin a l + c := by
  induction l generalizing a with
  | nil => rfl
  | cons x t ih =>
    show listMin (min (a + c) (x + c)) (t.map (fun x => x + c)) = listMin (min a x) t + c
    rw [min_add_add_right, ih]

theorem listMax_map_add (l : List ℚ) (a c : ℚ) :
    listMax (a + c) (l.map (fun x => x + c)) = listMax a l + c := by
  induction l generalizing a with
  | nil => rfl
  | cons x t ih =>
    show listMax (max (a + c) (x + c)) (t.map (fun x => x + c)) = listMax (max a x) t + c
    rw [max_add_add_right, ih]

theorem listMin_map_mul (l : List ℚ) (a s : ℚ) (hs : 0 ≤ s) :
    listMin (s * a) (l.map (fun x => s * x)) = s * listMin a l := by
  induction l generalizing a with
  | nil => rfl
  | cons x t ih =>
    show listMin (min (s * a) (s * x)) (t.map (fun x => s * x)) = s * listMin (min a x) t
    rw [← mul_min_of_nonneg _ _ hs, ih]

theorem listMax_map_mul (l : List ℚ) (a s : ℚ) (hs : 0 ≤ s) :
    listMax (s * a) (l.map (fun x => s * x)) = s * listMax a l := by
  induction l generalizing a with
  | nil => rfl
  | cons x t ih =>
    show listMax (max (s * a) (s * x)) (t.map (fun x => s * x)) = s * listMax (max a x) t
    rw [← mul_max_of_nonneg _ _ hs, ih]

theorem minXOf_translate (p : ℚ × ℚ) (l : List (ℚ × ℚ)) (dx dy : ℚ) :
    minXOf ((p :: l).map (psMatTranslate dx dy)) = minXOf (p :: l) + dx := by
  have h := listMin_map_add (l.map Prod.fst) p.1 dx
  rw [List.map_map] at h
  show listMin (p.1 + dx) ((l.map (psMatTranslate dx dy)).map Prod.fst) =
    listMin p.1 (l.map Prod.fst) + dx
  rw [List.map_map]
  exact h

theorem minYOf_translate (p : ℚ × ℚ) (l : List (ℚ × ℚ)) (dx dy : ℚ) :
    minYOf ((p :: l).map (psMatTranslate dx dy)) = minYOf (p :: l) + dy := by
  have h := listMin_map_add (l.map Prod.snd) p.2 dy
  rw [List.map_map] at h
  show listMin (p.2 + dy) ((l.map (psMatTranslate dx dy)).map Prod.snd) =
    listMin p.2 (l.map Prod.snd) + dy
  rw [List.map_map]
  exact h

theorem maxXOf_translate (p : ℚ × ℚ) (l : List (ℚ × ℚ)) (dx dy : ℚ) :
    maxXOf ((p :: l).map (psMatTranslate dx dy)) = maxXOf (p :: l) + dx := by
  have h := listMax_map_add (l.map Prod.fst) p.1 dx
  rw [List.map_map] at h
  show listMax (p.1 + dx) ((l.map (psMatTranslate dx dy)).map Prod.fst) =
    listMax p.1 (l.map Prod.fst) + dx
  rw [List.map_map]
  exact h

theorem maxYOf_translate (p : ℚ × ℚ) (l : List (ℚ × ℚ)) (dx dy : ℚ) :
    maxYOf ((p :: l).map (psMatTranslate dx dy)) = maxYOf (p :: l) + dy := by
  have h := listMax_map_add (l.map Prod.snd) p.2 dy
  rw [List.map_map] at h
  show listMax (p.2 + dy) ((l.map (psMatTranslate dx dy)).map Prod.snd) =
    listMax p.2 (l.map Prod.snd) + dy
  rw [List.map_map]
  exact h

theorem minXOf_scale (p : ℚ × ℚ) (l : List (ℚ × ℚ)) (s : ℚ) (hs : 0 ≤ s) :
    minXOf ((p :: l).map (psMatScale s)) = s * minXOf (p :: l) := by
  have h := listMin_map_mul (l.map Prod.fst) p.1 s hs
  rw [List.map_map] at h
  show listMin (s * p.1) ((l.map (psMatScale s)).map Prod.fst) =
    s * listMin p.1 (l.map Prod.fst)
  rw [List.map_map]
  exact h

theorem minYOf_scale (p : ℚ × ℚ) (l : List (ℚ × ℚ)) (s : ℚ) (hs : 0 ≤ s) :
    minYOf ((p :: l).map (psMatScale s)) = s * minYOf (p :: l) := by
  have h := listMin_map_mul (l.map Prod.snd) p.2 s hs
  rw [List.map_map] at h
  show listMin (s * p.2) ((l.map (psMatScale s)).map Prod.snd) =
    s * listMin p.2 (l.map Prod.snd)
  rw [List.map_map]
  exact h

theorem maxXOf_scale (p : ℚ × ℚ) (l : List (ℚ × ℚ)) (s : ℚ) (hs : 0 ≤ s) :
    maxXOf ((p :: l).map (psMatScale s)) = s * maxXOf (p :: l) := by
  have h := listMax_map_mul (l.map Prod.fst) p.1 s hs
  rw [List.map_map] at h
  show listMax (s * p.1) ((l.map (psMatScale s)).map Prod.fst) =
    s * listMax p.1 (l.map Prod.fst)
  rw [List.map_map]
  exact h

theorem maxYOf_scale (p : ℚ × ℚ) (l : List (ℚ × ℚ)) (s : ℚ) (hs : 0 ≤ s) :
    maxYOf ((p :: l).map (psMatScale s)) = s * maxYOf (p :: l) := by
  have h := listMax_map_mul (l.map Prod.snd) p.2 s hs
  rw [List.map_map] at h
  show listMax (s * p.2) ((l.map (psMatScale s)).map Prod.snd) =
    s * listMax p.2 (l.map Prod.snd)
  rw [List.map_map]
  exact h

/-! ## Placement equations -/

theorem placeWith_contours (glyph : Glyph) (y : ℚ) :
    (placeWith glyph y).contours =
      glyph.contours.map (psMatTranslate (center_x_offset glyph) y) := rfl

theorem placeWith_width (glyph : Glyph) (y : ℚ) :
    (placeWith glyph y).width = glyph.width := rfl

theorem placeWith_lsb (glyph : Glyph) (y : ℚ) :
    (placeWith glyph y).left_side_bearing =
      pyInt (floorDivQ ((glyph.width : ℚ) - glyph_width glyph) 2) := rfl

theorem placeWith_rsb (glyph : Glyph) (y : ℚ) :
    (placeWith glyph y).right_side_bearing =
      pyInt ((glyph.width : ℚ) - glyph_width glyph -
        floorDivQ ((glyph.width : ℚ) - glyph_width glyph) 2) := rfl

theorem center_and_align_bottom (font : Font) (glyph : Glyph) (v : ℤ) :
    center_and_align_glyph font glyph "bottom" v =
      (placeWith glyph (-glyph.minY + (v : ℚ)), Except.ok (),
        [alignMsg "bottom" v]) := rfl

theorem center_and_align_top (font : Font) (glyph : Glyph) (v : ℤ) :
    center_and_align_glyph font glyph "top" v =
      (placeWith glyph ((font.ascent - glyph.maxY) + (v : ℚ)), Except.ok (),
        [alignMsg "top" v]) := rfl

theorem center_and_align_invalid (font : Font) (glyph : Glyph) (v : ℤ)
    (a : String) (hb : a ≠ "bottom") (ht : a ≠ "top") :
    center_and_align_glyph font glyph a v =
      (glyph, Except.error invalidAlignmentMsg, []) := by
  unfold center_and_align_glyph
  rw [if_neg hb, if_neg ht]

theorem placeWith_minX (glyph : Glyph) (y : ℚ) (p : ℚ × ℚ) (l : List (ℚ × ℚ))
    (hc : glyph.contours = p :: l) :
    (placeWith glyph y).minX = floorDivQ ((glyph.width : ℚ) - glyph_width glyph) 2 := by
  show minXOf (placeWith glyph y).contours = _
  rw [placeWith_contours, hc, minXOf_translate]
  have hm : glyph.minX = minXOf (p :: l) := by simp only [Glyph.minX, hc]
  simp only [center_x_offset, hm]
  ring

theorem placeWith_maxX (glyph : Glyph) (y : ℚ) (p : ℚ × ℚ) (l : List (ℚ × ℚ))
    (hc : glyph.contours = p :: l) :
    (placeWith glyph y).maxX =
      floorDivQ ((glyph.width : ℚ) - glyph_width glyph) 2 + glyph_width glyph := by
  show maxXOf (placeWith glyph y).contours = _
  rw [placeWith_contours, hc, maxXOf_translate]
  have hm : glyph.minX = minXOf (p :: l) := by simp only [Glyph.minX, hc]
  have hM : glyph.maxX = maxXOf (p :: l) := by simp only [Glyph.maxX, hc]
  simp only [center_x_offset, glyph_width, hm, hM]
  ring

theorem placeWith_minY (glyph : Glyph) (y : ℚ) (p : ℚ × ℚ) (l : List (ℚ × ℚ))
    (hc : glyph.contours = p :: l) :
    (placeWith glyph y).minY = glyph.minY + y := by
  show minYOf (placeWith glyph y).contours = _
  rw [placeWith_contours, hc, minYOf_translate]
  simp only [Glyph.minY, hc]

theorem placeWith_maxY (glyph : Glyph) (y : ℚ) (p : ℚ × ℚ) (l : List (ℚ × ℚ))
    (hc : glyph.contours = p :: l) :
    (placeWith glyph y).maxY = glyph.maxY + y := by
  show maxYOf (placeWith glyph y).contours = _
  rw [placeWith_contours, hc, maxYOf_translate]
  simp only [Glyph.maxY, hc]

theorem psMatScale_one : psMatScale (1 : ℚ) = id := by
  funext p
  simp [psMatScale]

theorem scale_glyph_one (glyph : Glyph) : scale_glyph glyph 1 = glyph := by
  cases glyph with
  | mk c w lsb rsb => simp [scale_glyph, Glyph.transform, psMatScale_one]

/-! ## Concrete fixtures -/

/-- A fixture font carrying the FontForge default metrics. -/
def font0 : Font :=
  { fontname := "f", fullname := "f", familyname := "f",
    ascent := 800, descent := 200, em := 1000, glyphs := [] }

/-- A glyph with an empty outline (a skipped auto-trace), advance width 10. -/
def gEmpty : Glyph := ⟨[], 10, 0, 0⟩

/-- A glyph whose bounding box has the fractional width 7/2. -/
def gFrac : Glyph := ⟨[(0, 0), (7/2, 1)], 10, 0, 0⟩

/-- A single-point glyph: zero-width bounding box, odd advance width. -/
def gPoint : Glyph := ⟨[(5, 0)], 1, 0, 0⟩

/-- A two-point glyph with the integer bounding box (1,2)-(5,6). -/
def gBox : Glyph := ⟨[(1, 2), (5, 6)], 12, 0, 0⟩

/-! ## Claim theorems -/

/-- C3: for every glyph placed with alignment "bottom" the call succeeds and
translates the geometry by `y_offset = -min_y + vertical_offset`; when the
configured vertical offset is 0, the minimum y-coordinate of the placed
glyph equals 0. -/
theorem C3_bottom_vertical_translation (font : Font) (glyph : Glyph) (v : ℤ) :
    placeOutcome font glyph "bottom" v = Except.ok () ∧
    (placedGlyph font glyph "bottom" v).contours =
      glyph.contours.map
        (psMatTranslate (center_x_offset glyph) (-glyph.minY + (v : ℚ))) ∧
    (v = 0 → (placedGlyph font glyph "bottom" v).minY = 0) := by
  refine ⟨rfl, rfl, ?_⟩
  intro hv
  subst hv
  cases hc : glyph.contours with
  | nil =>
    have hn : (placedGlyph font glyph "bottom" 0).contours = [] := by
      show (placeWith glyph (-glyph.minY + ((0 : ℤ) : ℚ))).contours = []
      rw [placeWith_contours, hc]
      rfl
    show minYOf (placedGlyph font glyph "bottom" 0).contours = 0
    rw [hn]
    rfl
  | cons p l =>
    have h := placeWith_minY glyph (-glyph.minY + ((0 : ℤ) : ℚ)) p l hc
    show (placeWith glyph (-glyph.minY + ((0 : ℤ) : ℚ))).minY = 0
    rw [h]
    push_cast
    ring

/-- C3 witness: the bottom-aligned placement of the concrete glyph `gBox`
with vertical offset 0 succeeds, translates by its formula, and pins the
minimum y-coordinate to 0. -/
theorem C3_witness :
    placeOutcome font0 gBox "bottom" 0 = Except.ok () ∧
    (placedGlyph font0 gBox "bottom" 0).contours =
      gBox.contours.map
        (psMatTranslate (center_x_offset gBox) (-gBox.minY + ((0 : ℤ) : ℚ))) ∧
    (placedGlyph font0 gBox "bottom" 0).minY = 0 := by
  obtain ⟨h1, h2, h3⟩ := C3_bottom_vertical_translation font0 gBox 0
  exact ⟨h1, h2, h3 rfl⟩

/-- C9: for every positive scaling factor, `scale_glyph` maps every contour
point through the uniform linear scale, multiplies every bounding-box
coordinate by the factor, and leaves the advance width and both stored side
bearings unchanged. -/
theorem C9_scale_frame_effect (glyph : Glyph) (s : ℚ) (hs : 0 < s) :
    (scale_glyph glyph s).contours = glyph.contours.map (psMatScale s) ∧
    (scale_glyph glyph s).width = glyph.width ∧
    (scale_glyph glyph s).left_side_bearing = glyph.left_side_bearing ∧
    (scale_glyph glyph s).right_side_bearing = glyph.right_side_bearing ∧
    (scale_glyph glyph s).boundingBox =
      (s * glyph.minX, s * glyph.minY, s * glyph.maxX, s * glyph.maxY) := by
  refine ⟨rfl, rfl, rfl, rfl, ?_⟩
  cases hc : glyph.contours with
  | nil =>
    have hsc : (scale_glyph glyph s).contours = [] := by
      show glyph.contours.map (psMatScale s) = []
      rw [hc]
      rfl
    simp [Glyph.boundingBox, Glyph.minX, Glyph.minY, Glyph.maxX, Glyph.maxY,
      hsc, hc, minXOf, minYOf, maxXOf, maxYOf]
  | cons p l =>
    have hsc : (scale_glyph glyph s).contours = (p :: l).map (psMatScale s) := by
      show glyph.contours.map (psMatScale s) = _
      rw [hc]
    have e1 : (scale_glyph glyph s).minX = s * glyph.minX := by
      show minXOf (scale_glyph glyph s).contours = _
      rw [hsc, minXOf_scale p l s hs.le]
      simp only [Glyph.minX, hc]
    have e2 : (scale_glyph glyph s).minY = s * glyph.minY := by
      show minYOf (scale_glyph glyph s).contours = _
      rw [hsc, minYOf_scale p l s hs.le]
      simp only [Glyph.minY, hc]
    have e3 : (scale_glyph glyph s).maxX = s * glyph.maxX := by
      show maxXOf (scale_glyph glyph s).contours = _
      rw [hsc, maxXOf_scale p l s hs.le]
      simp only [Glyph.maxX, hc]
    have e4 : (scale_glyph glyph s).maxY = s * glyph.maxY := by
      show maxYOf (scale_glyph glyph s).contours = _
      rw [hsc, maxYOf_scale p l s hs.le]
      simp only [Glyph.maxY, hc]
    simp only [Glyph.boundingBox]
    rw [e1, e2, e3, e4]

/-- C9 witness: scaling the concrete glyph `gBox` by the positive factor 2
has exactly the stated frame effect. -/
theorem C9_witness :
    (0 : ℚ) < 2 ∧
    ((scale_glyph gBox 2).contours = gBox.contours.map (psMatScale 2) ∧
     (scale_glyph gBox 2).width = gBox.width ∧
     (scale_glyph gBox 2).left_side_bearing = gBox.left_side_bearing ∧
     (scale_glyph gBox 2).right_side_bearing = gBox.right_side_bearing ∧
     (scale_glyph gBox 2).boundingBox =
       (2 * gBox.minX, 2 * gBox.minY, 2 * gBox.maxX, 2 * gBox.maxY)) :=
  ⟨by norm_num, C9_scale_frame_effect gBox 2 (by norm_num)⟩

/-- C10: on any alignment value other than "top" or "bottom",
`center_and_align_glyph` raises its error before the translation and before
either side-bearing write, returning the entry glyph completely unchanged
together with the configuration error. -/
theorem C10_invalid_alignment_atomic (font : Font) (glyph : Glyph) (v : ℤ)
    (a : String) (hb : a ≠ "bottom") (ht : a ≠ "top") :
    center_and_align_glyph font glyph a v =
      (glyph, Except.error invalidAlignmentMsg, []) :=
  center_and_align_invalid font glyph v a hb ht

/-- C10 witness: the concrete alignment value "middle" leaves the concrete
glyph `gBox` untouched and reports the configuration error. -/
theorem C10_witness :
    ("middle" : String) ≠ "bottom" ∧ ("middle" : String) ≠ "top" ∧
    center_and_align_glyph font0 gBox "middle" 0 =
      (gBox, Except.error invalidAlignmentMsg, []) :=
  ⟨by decide, by decide,
    C10_invalid_alignment_atomic font0 gBox 0 "middle" (by decide) (by decide)⟩

/-- The placed bounding box is centered: its left edge sits at
`(advance_width - glyph_width) // 2`, its width is preserved, and the gap on
the left is at most the gap on the right, the two differing by less than
two units (floor division sends ties to the left). -/
theorem placeWith_centering (glyph : Glyph) (y : ℚ) (p : ℚ × ℚ)
    (l : List (ℚ × ℚ)) (hc : glyph.contours = p :: l) :
    (placeWith glyph y).minX = floorDivQ ((glyph.width : ℚ) - glyph_width glyph) 2 ∧
    (placeWith glyph y).maxX = (placeWith glyph y).minX + glyph_width glyph ∧
    (placeWith glyph y).minX ≤ (glyph.width : ℚ) - (placeWith glyph y).maxX ∧
    ((glyph.width : ℚ) - (placeWith glyph y).maxX) - (placeWith glyph y).minX < 2 := by
  have h1 := placeWith_minX glyph y p l hc
  have h2 := placeWith_maxX glyph y p l hc
  refine ⟨h1, by rw [h1, h2], ?_, ?_⟩
  · rw [h1, h2]
    have hf : (⌊((glyph.width : ℚ) - glyph_width glyph) / 2⌋ : ℚ) ≤
        ((glyph.width : ℚ) - glyph_width glyph) / 2 := Int.floor_le _
    simp only [floorDivQ]
    linarith
  · rw [h1, h2]
    have hf : ((glyph.width : ℚ) - glyph_width glyph) / 2 <
        ⌊((glyph.width : ℚ) - glyph_width glyph) / 2⌋ + 1 := Int.lt_floor_add_one _
    simp only [floorDivQ]
    linarith

/-- C2 counterexample: for a glyph with an empty outline the bounding box
reported by the library stays `(0,0,0,0)`, so after placement the left edge
of the bounding box does not sit at `(advance_width - glyph_width) // 2`:
the claim fails for the concrete empty glyph `gEmpty`. -/
theorem C2_counterexample :
    ¬ ((placedGlyph font0 gEmpty "bottom" 0).minX =
        floorDivQ ((gEmpty.width : ℚ) - glyph_width gEmpty) 2) := by
  have hn : (placedGlyph font0 gEmpty "bottom" 0).contours = [] := rfl
  have h1 : (placedGlyph font0 gEmpty "bottom" 0).minX = 0 := by
    show minXOf (placedGlyph font0 gEmpty "bottom" 0).contours = 0
    rw [hn]
    rfl
  have h2 : glyph_width gEmpty = 0 := by
    simp [glyph_width, Glyph.maxX, Glyph.minX, gEmpty, maxXOf, minXOf]
  rw [h1, h2]
  simp only [floorDivQ, gEmpty]
  norm_num

/-- C2 (amended to glyphs with a nonempty outline): placement translates the
geometry horizontally by `center_x_offset = (advance_width - glyph_width) // 2
- min_x` with floor division, after which the bounding box is horizontally
centered within the advance width: left edge at the floor-divided half gap,
width preserved, left gap at most the right gap (ties to the left) and the
two gaps differing by less than two units. -/
theorem C2_horizontal_centering (font : Font) (glyph : Glyph) (alignment : String)
    (v : ℤ) (p : ℚ × ℚ) (l : List (ℚ × ℚ)) (hc : glyph.contours = p :: l)
    (ha : alignment = "bottom" ∨ alignment = "top") :
    ∃ y : ℚ,
      (placedGlyph font glyph alignment v).contours =
        glyph.contours.map (psMatTranslate (center_x_offset glyph) y) ∧
      center_x_offset glyph =
        floorDivQ ((glyph.width : ℚ) - glyph_width glyph) 2 - glyph.minX ∧
      (placedGlyph font glyph alignment v).minX =
        floorDivQ ((glyph.width : ℚ) - glyph_width glyph) 2 ∧
      (placedGlyph font glyph alignment v).maxX =
        (placedGlyph font glyph alignment v).minX + glyph_width glyph ∧
      (placedGlyph font glyph alignment v).minX ≤
        (glyph.width : ℚ) - (placedGlyph font glyph alignment v).maxX ∧
      ((glyph.width : ℚ) - (placedGlyph font glyph alignment v).maxX) -
          (placedGlyph font glyph alignment v).minX < 2 := by
  rcases ha with ha | ha
  · subst ha
    obtain ⟨h1, h2, h3, h4⟩ :=
      placeWith_centering glyph (-glyph.minY + (v : ℚ)) p l hc
    exact ⟨-glyph.minY + (v : ℚ), rfl, rfl, h1, h2, h3, h4⟩
  · subst ha
    obtain ⟨h1, h2, h3, h4⟩ :=
      placeWith_centering glyph ((font.ascent - glyph.maxY) + (v : ℚ)) p l hc
    exact ⟨(font.ascent - glyph.maxY) + (v : ℚ), rfl, rfl, h1, h2, h3, h4⟩

/-- C2 witness: the concrete glyph `gBox` under bottom placement. -/
theorem C2_witness :
    ∃ y : ℚ,
      (placedGlyph font0 gBox "bottom" 0).contours =
        gBox.contours.map (psMatTranslate (center_x_offset gBox) y) ∧
      center_x_offset gBox =
        floorDivQ ((gBox.width : ℚ) - glyph_width gBox) 2 - gBox.minX ∧
      (placedGlyph font0 gBox "bottom" 0).minX =
        floorDivQ ((gBox.width : ℚ) - glyph_width gBox) 2 ∧
      (placedGlyph font0 gBox "bottom" 0).maxX =
        (placedGlyph font0 gBox "bottom" 0).minX + glyph_width gBox ∧
      (placedGlyph font0 gBox "bottom" 0).minX ≤
        (gBox.width : ℚ) - (placedGlyph font0 gBox "bottom" 0).maxX ∧
      ((gBox.width : ℚ) - (placedGlyph font0 gBox "bottom" 0).maxX) -
          (placedGlyph font0 gBox "bottom" 0).minX < 2 :=
  C2_horizontal_centering font0 gBox "bottom" 0 (1, 2) [(5, 6)] rfl (Or.inl rfl)

/-- C4 counterexample: for a glyph with an empty outline the library reports
the bounding box `(0,0,0,0)`, the translation moves no geometry, and the
maximum y-coordinate after top placement with vertical offset 0 is 0, not
the font ascent: the claim fails for the concrete empty glyph `gEmpty`. -/
theorem C4_counterexample :
    ¬ ((placedGlyph font0 gEmpty "top" 0).maxY = font0.ascent) := by
  have hn : (placedGlyph font0 gEmpty "top" 0).contours = [] := rfl
  have h1 : (placedGlyph font0 gEmpty "top" 0).maxY = 0 := by
    show maxYOf (placedGlyph font0 gEmpty "top" 0).contours = 0
    rw [hn]
    rfl
  rw [h1]
  norm_num [font0]

/-- C4 (amended to glyphs with a nonempty outline): top placement succeeds
and translates by `y_offset = (font_ascent - max_y) + vertical_offset`, a
formula with no descent term, so the result is unchanged under any
modification of the font descent; with vertical offset 0 the maximum
y-coordinate of the placed glyph equals the font ascent. -/
theorem C4_top_vertical_translation (font : Font) (glyph : Glyph) (v : ℤ)
    (p : ℚ × ℚ) (l : List (ℚ × ℚ)) (hc : glyph.contours = p :: l) :
    placeOutcome font glyph "top" v = Except.ok () ∧
    (placedGlyph font glyph "top" v).contours =
      glyph.contours.map
        (psMatTranslate (center_x_offset glyph)
          ((font.ascent - glyph.maxY) + (v : ℚ))) ∧
    (∀ d : ℚ,
      center_and_align_glyph { font with descent := d } glyph "top" v =
        center_and_align_glyph font glyph "top" v) ∧
    (v = 0 → (placedGlyph font glyph "top" v).maxY = font.ascent) := by
  refine ⟨rfl, rfl, fun d => rfl, ?_⟩
  intro hv
  subst hv
  have h := placeWith_maxY glyph ((font.ascent - glyph.maxY) + ((0 : ℤ) : ℚ)) p l hc
  show (placeWith glyph ((font.ascent - glyph.maxY) + ((0 : ℤ) : ℚ))).maxY = font.ascent
  rw [h]
  push_cast
  ring

/-- C4 witness: top placement of the concrete glyph `gBox` with vertical
offset 0 pins its maximum y-coordinate to the ascent of `font0`. -/
theorem C4_witness :
    placeOutcome font0 gBox "top" 0 = Except.ok () ∧
    (placedGlyph font0 gBox "top" 0).contours =
      gBox.contours.map
        (psMatTranslate (center_x_offset gBox)
          ((font0.ascent - gBox.maxY) + ((0 : ℤ) : ℚ))) ∧
    (∀ d : ℚ,
      center_and_align_glyph { font0 with descent := d } gBox "top" 0 =
        center_and_align_glyph font0 gBox "top" 0) ∧
    (placedGlyph font0 gBox "top" 0).maxY = font0.ascent := by
  obtain ⟨h1, h2, h3, h4⟩ := C4_top_vertical_translation font0 gBox 0 (1, 2) [(5, 6)] rfl
  exact ⟨h1, h2, h3, h4 rfl⟩

/-- Re-running the horizontal-centering computation on a glyph placed by
`placeWith` yields a zero offset (nonempty outline). -/
theorem placeWith_center_x_offset (glyph : Glyph) (y : ℚ) (p : ℚ × ℚ)
    (l : List (ℚ × ℚ)) (hc : glyph.contours = p :: l) :
    center_x_offset (placeWith glyph y) = 0 := by
  have h1 := placeWith_minX glyph y p l hc
  have h2 := placeWith_maxX glyph y p l hc
  have hw : (placeWith glyph y).width = glyph.width := placeWith_width glyph y
  unfold center_x_offset glyph_width
  rw [h1, h2, hw]
  have harg : (glyph.width : ℚ) -
      (floorDivQ ((glyph.width : ℚ) - glyph_width glyph) 2 + glyph_width glyph -
        floorDivQ ((glyph.width : ℚ) - glyph_width glyph) 2) =
      (glyph.width : ℚ) - glyph_width glyph := by ring
  rw [harg]
  ring

/-- C8 counterexample: for a glyph with an empty outline the bounding box
stays `(0,0,0,0)` through placement, so re-running the centering
computation at scale 1 yields `advance_width // 2` (here 5), not 0: the
claim fails for the concrete empty glyph `gEmpty`. -/
theorem C8_counterexample :
    ¬ (center_x_offset (scale_glyph (placedGlyph font0 gEmpty "bottom" 0) 1) = 0) := by
  have hn : (scale_glyph (placedGlyph font0 gEmpty "bottom" 0) 1).contours = [] := rfl
  have hw : (scale_glyph (placedGlyph font0 gEmpty "bottom" 0) 1).width = 10 := rfl
  have h1 : (scale_glyph (placedGlyph font0 gEmpty "bottom" 0) 1).minX = 0 := by
    show minXOf (scale_glyph (placedGlyph font0 gEmpty "bottom" 0) 1).contours = 0
    rw [hn]
    rfl
  have h3 : (scale_glyph (placedGlyph font0 gEmpty "bottom" 0) 1).maxX = 0 := by
    show maxXOf (scale_glyph (placedGlyph font0 gEmpty "bottom" 0) 1).contours = 0
    rw [hn]
    rfl
  unfold center_x_offset glyph_width
  rw [h1, h3, hw]
  simp only [floorDivQ]
  norm_num

/-- C8 (amended to glyphs with a nonempty outline): re-running placement at
scale 1 on an already-placed glyph computes a horizontal centering offset
of 0. -/
theorem C8_idempotent_centering (font : Font) (glyph : Glyph) (alignment : String)
    (v : ℤ) (p : ℚ × ℚ) (l : List (ℚ × ℚ)) (hc : glyph.contours = p :: l)
    (ha : alignment = "bottom" ∨ alignment = "top") :
    center_x_offset (scale_glyph (placedGlyph font glyph alignment v) 1) = 0 := by
  rw [scale_glyph_one]
  rcases ha with ha | ha
  · subst ha
    exact placeWith_center_x_offset glyph (-glyph.minY + (v : ℚ)) p l hc
  · subst ha
    exact placeWith_center_x_offset glyph ((font.ascent - glyph.maxY) + (v : ℚ)) p l hc

/-- C8 witness: re-running the centering computation on the placed concrete
glyph `gBox` yields offset 0. -/
theorem C8_witness :
    center_x_offset (scale_glyph (placedGlyph font0 gBox "bottom" 0) 1) = 0 :=
  C8_idempotent_centering font0 gBox "bottom" 0 (1, 2) [(5, 6)] rfl (Or.inl rfl)

/-- After placement the sum of the two truncated side bearings and the
bounding-box width recovers the advance width whenever the bounding-box
width is an integer. -/
theorem placeWith_bearing_sum (glyph : Glyph) (y : ℚ) (m : ℤ)
    (hm : glyph_width glyph = (m : ℚ)) :
    ((placeWith glyph y).left_side_bearing : ℚ) + glyph_width glyph +
      ((placeWith glyph y).right_side_bearing : ℚ) = (glyph.width : ℚ) := by
  rw [placeWith_lsb, placeWith_rsb, hm]
  have hfd : floorDivQ ((glyph.width : ℚ) - (m : ℚ)) 2 =
      ((⌊((glyph.width : ℚ) - (m : ℚ)) / 2⌋ : ℤ) : ℚ) := rfl
  rw [hfd]
  have h2 : (glyph.width : ℚ) - (m : ℚ) - ((⌊((glyph.width : ℚ) - (m : ℚ)) / 2⌋ : ℤ) : ℚ) =
      ((glyph.width - m - ⌊((glyph.width : ℚ) - (m : ℚ)) / 2⌋ : ℤ) : ℚ) := by
    push_cast
    ring
  rw [h2, pyInt_intCast, pyInt_intCast]
  push_cast
  ring

/-- C1 counterexample: the glyph `gFrac` has the fractional scaled
bounding-box width 7/2; the Python `int(...)` truncation of the computed
right bearing makes the stored sum 3 + 7/2 + 3 = 19/2, not the advance
width 10: the claim fails as stated. -/
theorem C1_counterexample :
    ¬ (((placedGlyph font0 gFrac "bottom" 0).left_side_bearing : ℚ) +
        glyph_width gFrac +
        ((placedGlyph font0 gFrac "bottom" 0).right_side_bearing : ℚ) =
        (gFrac.width : ℚ)) := by
  have hgw : glyph_width gFrac = 7 / 2 := by
    norm_num [glyph_width, Glyph.maxX, Glyph.minX, gFrac, maxXOf, minXOf,
      listMin, listMax, min_def, max_def]
  have hfd : floorDivQ ((gFrac.width : ℚ) - glyph_width gFrac) 2 = 3 := by
    rw [hgw]
    simp only [floorDivQ, gFrac]
    norm_num
  have hl : (placedGlyph font0 gFrac "bottom" 0).left_side_bearing = 3 := by
    show (placeWith gFrac (-gFrac.minY + ((0 : ℤ) : ℚ))).left_side_bearing = 3
    rw [placeWith_lsb, hfd]
    norm_num [pyInt]
  have hr : (placedGlyph font0 gFrac "bottom" 0).right_side_bearing = 3 := by
    show (placeWith gFrac (-gFrac.minY + ((0 : ℤ) : ℚ))).right_side_bearing = 3
    rw [placeWith_rsb, hfd, hgw]
    norm_num [pyInt, gFrac]
  rw [hl, hr, hgw]
  norm_num [gFrac]

/-- C1 (amended to integer bounding-box widths): after placement with a
valid alignment, the stored side bearings satisfy
`left_side_bearing + glyph_width + right_side_bearing = advance_width`
exactly whenever the scaled bounding-box width is an integer; the `int()`
casts in the source otherwise truncate the fractional part away. -/
theorem C1_side_bearing_sum (font : Font) (glyph : Glyph) (alignment : String)
    (v : ℤ) (ha : alignment = "bottom" ∨ alignment = "top") (m : ℤ)
    (hm : glyph_width glyph = (m : ℚ)) :
    ((placedGlyph font glyph alignment v).left_side_bearing : ℚ) +
      glyph_width glyph +
      ((placedGlyph font glyph alignment v).right_side_bearing : ℚ) =
      (glyph.width : ℚ) := by
  rcases ha with ha | ha
  · subst ha
    exact placeWith_bearing_sum glyph (-glyph.minY + (v : ℚ)) m hm
  · subst ha
    exact placeWith_bearing_sum glyph ((font.ascent - glyph.maxY) + (v : ℚ)) m hm

/-- C1 witness: the concrete glyph `gBox` has integer bounding-box width 4
and advance width 12; after placement the stored bearings are 4 and 4 and
the invariant sum holds exactly. -/
theorem C1_witness :
    glyph_width gBox = ((4 : ℤ) : ℚ) ∧
    ((placedGlyph font0 gBox "bottom" 0).left_side_bearing : ℚ) +
        glyph_width gBox +
        ((placedGlyph font0 gBox "bottom" 0).right_side_bearing : ℚ) =
        (gBox.width : ℚ) := by
  have hm : glyph_width gBox = ((4 : ℤ) : ℚ) := by
    norm_num [glyph_width, Glyph.maxX, Glyph.minX, gBox, maxXOf, minXOf,
      listMin, listMax, min_def, max_def]
  exact ⟨hm, C1_side_bearing_sum font0 gBox "bottom" 0 (Or.inl rfl) 4 hm⟩

/-- Bearings stored for a zero-width bounding box: the floor of half the
advance width on the left and the remainder on the right. -/
theorem placeWith_bearings_zero_width (glyph : Glyph) (y : ℚ)
    (h0 : glyph_width glyph = 0) :
    (placeWith glyph y).left_side_bearing = ⌊(glyph.width : ℚ) / 2⌋ ∧
    (placeWith glyph y).right_side_bearing = glyph.width - ⌊(glyph.width : ℚ) / 2⌋ := by
  constructor
  · rw [placeWith_lsb, h0]
    have h : floorDivQ ((glyph.width : ℚ) - 0) 2 = ((⌊(glyph.width : ℚ) / 2⌋ : ℤ) : ℚ) := by
      simp [floorDivQ]
    rw [h, pyInt_intCast]
  · rw [placeWith_rsb, h0]
    have h : (glyph.width : ℚ) - 0 - floorDivQ ((glyph.width : ℚ) - 0) 2 =
        ((glyph.width - ⌊(glyph.width : ℚ) / 2⌋ : ℤ) : ℚ) := by
      simp only [floorDivQ, sub_zero]
      push_cast
      ring
    rw [h, pyInt_intCast]

/-- Zero-width placement: bearings, and the half-advance characterization
for even advance widths. -/
theorem placeWith_zero_width_chunk (glyph : Glyph) (y : ℚ)
    (h0 : glyph_width glyph = 0) :
    (placeWith glyph y).left_side_bearing = ⌊(glyph.width : ℚ) / 2⌋ ∧
    (placeWith glyph y).right_side_bearing = glyph.width - ⌊(glyph.width : ℚ) / 2⌋ ∧
    (2 ∣ glyph.width →
      ((placeWith glyph y).left_side_bearing : ℚ) = (glyph.width : ℚ) / 2 ∧
      ((placeWith glyph y).right_side_bearing : ℚ) = (glyph.width : ℚ) / 2) := by
  obtain ⟨hl, hr⟩ := placeWith_bearings_zero_width glyph y h0
  refine ⟨hl, hr, ?_⟩
  rintro ⟨k, hk⟩
  rw [hl, hr, hk]
  have hq : ((2 * k : ℤ) : ℚ) / 2 = (k : ℚ) := by
    push_cast
    ring
  constructor
  · rw [hq, Int.floor_intCast]
  · rw [hq, Int.floor_intCast]
    push_cast
    ring

/-- C7 counterexample: `gPoint` has a zero-width bounding box and the odd
advance width 1; placement stores bearings 0 and 1, and the left bearing is
not half the advance width: the claim fails as stated. -/
theorem C7_counterexample :
    ¬ ((((placedGlyph font0 gPoint "bottom" 0).left_side_bearing : ℚ) =
          (gPoint.width : ℚ) / 2) ∧
       (((placedGlyph font0 gPoint "bottom" 0).right_side_bearing : ℚ) =
          (gPoint.width : ℚ) / 2)) := by
  rintro ⟨h1, -⟩
  have hgw : glyph_width gPoint = 0 := by
    norm_num [glyph_width, Glyph.maxX, Glyph.minX, gPoint, maxXOf, minXOf,
      listMin, listMax]
  have hl : (placedGlyph font0 gPoint "bottom" 0).left_side_bearing = 0 := by
    show (placeWith gPoint (-gPoint.minY + ((0 : ℤ) : ℚ))).left_side_bearing = 0
    rw [placeWith_lsb, hgw]
    norm_num [floorDivQ, pyInt, gPoint]
  rw [hl] at h1
  norm_num [gPoint] at h1

/-- C7 (amended): a zero-width bounding box places without error and stores
`left = advance_width // 2` and `right = advance_width - left`; the two are
both equal to half the advance width exactly when the advance width is
even. -/
theorem C7_zero_width_placement (font : Font) (glyph : Glyph) (alignment : String)
    (v : ℤ) (ha : alignment = "bottom" ∨ alignment = "top")
    (h0 : glyph_width glyph = 0) :
    placeOutcome font glyph alignment v = Except.ok () ∧
    (placedGlyph font glyph alignment v).left_side_bearing = ⌊(glyph.width : ℚ) / 2⌋ ∧
    (placedGlyph font glyph alignment v).right_side_bearing =
      glyph.width - ⌊(glyph.width : ℚ) / 2⌋ ∧
    (2 ∣ glyph.width →
      ((placedGlyph font glyph alignment v).left_side_bearing : ℚ) =
        (glyph.width : ℚ) / 2 ∧
      ((placedGlyph font glyph alignment v).right_side_bearing : ℚ) =
        (glyph.width : ℚ) / 2) := by
  rcases ha with ha | ha
  · subst ha
    obtain ⟨hl, hr, hd⟩ :=
      placeWith_zero_width_chunk glyph (-glyph.minY + (v : ℚ)) h0
    exact ⟨rfl, hl, hr, hd⟩
  · subst ha
    obtain ⟨hl, hr, hd⟩ :=
      placeWith_zero_width_chunk glyph ((font.ascent - glyph.maxY) + (v : ℚ)) h0
    exact ⟨rfl, hl, hr, hd⟩

/-- C7 witness: the empty glyph `gEmpty` (zero-width box, even advance
width 10) places without error with both bearings equal to 5. -/
theorem C7_witness :
    glyph_width gEmpty = 0 ∧
    placeOutcome font0 gEmpty "bottom" 0 = Except.ok () ∧
    ((placedGlyph font0 gEmpty "bottom" 0).left_side_bearing : ℚ) =
      (gEmpty.width : ℚ) / 2 ∧
    ((placedGlyph font0 gEmpty "bottom" 0).right_side_bearing : ℚ) =
      (gEmpty.width : ℚ) / 2 := by
  have h0 : glyph_width gEmpty = 0 := by
    norm_num [glyph_width, Glyph.maxX, Glyph.minX, gEmpty, maxXOf, minXOf]
  obtain ⟨h1, h2, h3, h4⟩ :=
    C7_zero_width_placement font0 gEmpty "bottom" 0 (Or.inl rfl) h0
  obtain ⟨h5, h6⟩ := h4 ⟨5, by decide⟩
  exact ⟨h0, h1, h5, h6⟩

/-! ## Run-level lemmas -/

theorem import_missing (env : Env) (font : Font) (char : Char)
    (image_path : String) (h : env.fileExists image_path = false) :
    (import_and_trace_glyph env font char image_path) =
      ((font.createChar char.toNat).1, none, [notFoundMsg char]) := by
  simp [import_and_trace_glyph, h]

theorem import_present (env : Env) (font : Font) (char : Char)
    (image_path : String) (h : env.fileExists image_path = true) :
    (import_and_trace_glyph env font char image_path) =
      ((font.createChar char.toNat).1.setGlyph char.toNat
          { (font.createChar char.toNat).2 with
              contours := env.traceContours image_path },
        some (char.toNat,
          { (font.createChar char.toNat).2 with
              contours := env.traceContours image_path }),
        [if (env.traceContours image_path).isEmpty then emptyTraceMsg char
          else tracedMsg char]) := by
  simp [import_and_trace_glyph, h]

theorem processGlyphs_cons_missing (env : Env) (cfg : Config) (font : Font)
    (char : Char) (image_name : String) (rest : List (Char × String))
    (h : env.fileExists (imagePath cfg image_name) = false) :
    processGlyphs env cfg font ((char, image_name) :: rest) =
      processGlyphs env cfg (font.createChar char.toNat).1 rest := by
  simp only [processGlyphs]
  rw [import_missing env font char (imagePath cfg image_name) h]

theorem processGlyphs_cons_invalid (env : Env) (cfg : Config) (font : Font)
    (char : Char) (image_name : String) (rest : List (Char × String))
    (h : env.fileExists (imagePath cfg image_name) = true)
    (hb : cfg.alignment ≠ "bottom") (ht : cfg.alignment ≠ "top") :
    processGlyphs env cfg font ((char, image_name) :: rest) =
      Except.error invalidAlignmentMsg := by
  simp [processGlyphs, import_and_trace_glyph, h,
    center_and_align_invalid _ _ cfg.vertical_offset cfg.alignment hb ht]

/-- With an unrecognized alignment value, the per-character loop aborts with
the configuration error as soon as any requested image exists (the first
glyph that reaches placement raises). -/
theorem processGlyphs_invalid_alignment (env : Env) (cfg : Config)
    (hb : cfg.alignment ≠ "bottom") (ht : cfg.alignment ≠ "top") :
    ∀ (l : List (Char × String)) (font : Font),
      (∃ e ∈ l, env.fileExists (imagePath cfg e.2) = true) →
      processGlyphs env cfg font l = Except.error invalidAlignmentMsg := by
  intro l
  induction l with
  | nil =>
    intro font hex
    simp at hex
  | cons e rest ih =>
    intro font hex
    obtain ⟨ch, img⟩ := e
    cases hfe : env.fileExists (imagePath cfg img) with
    | true => exact processGlyphs_cons_invalid env cfg font ch img rest hfe hb ht
    | false =>
      rw [processGlyphs_cons_missing env cfg font ch img rest hfe]
      apply ih
      obtain ⟨e2, he2, hex2⟩ := hex
      rcases List.mem_cons.mp he2 with he2 | he2
      · subst he2
        dsimp only at hex2
        rw [hfe] at hex2
        exact Bool.noConfusion hex2
      · exact ⟨e2, he2, hex2⟩

/-- C5: any configured alignment other than "top" or "bottom" makes the run
abort with the configuration error as soon as one requested image exists
(so one glyph reaches placement), and no output font file is written. -/
theorem C5_invalid_alignment_fatal (env : Env) (cfg : Config)
    (hb : cfg.alignment ≠ "bottom") (ht : cfg.alignment ≠ "top")
    (hreach : ∃ e ∈ cfg.glyphsSection,
      env.fileExists (imagePath cfg e.2) = true) :
    runMain env cfg = Except.error invalidAlignmentMsg ∧
    filesWritten (runMain env cfg) = [] := by
  have h := processGlyphs_invalid_alignment env cfg hb ht cfg.glyphsSection
    (create_font cfg) hreach
  have hrm : runMain env cfg = Except.error invalidAlignmentMsg := by
    simp only [runMain]
    rw [h]
  exact ⟨hrm, by rw [hrm]; rfl⟩

/-- A configuration with the invalid alignment value "middle" and one
requested character. -/
def cfgMid : Config :=
  { fontname := "n", fullname := "n", familyname := "n",
    scaling_factor := 1, alignment := "middle", vertical_offset := 0,
    common_image_path := "imgs", sfd_path := "out.sfd", ttf_path := "out.ttf",
    glyphsSection := [('A', "a.png")] }

/-- An environment in which every image path exists and traces to a
two-point contour. -/
def envAll : Env := ⟨fun _ => true, fun _ => [(0, 0), (1, 1)]⟩

/-- C5 witness: the concrete run with alignment "middle" and an existing
image aborts with the configuration error and writes no files. -/
theorem C5_witness :
    cfgMid.alignment ≠ "bottom" ∧ cfgMid.alignment ≠ "top" ∧
    (∃ e ∈ cfgMid.glyphsSection, envAll.fileExists (imagePath cfgMid e.2) = true) ∧
    runMain envAll cfgMid = Except.error invalidAlignmentMsg ∧
    filesWritten (runMain envAll cfgMid) = [] := by
  have h := C5_invalid_alignment_fatal envAll cfgMid (by decide) (by decide)
    ⟨('A', "a.png"), by decide, by decide⟩
  exact ⟨by decide, by decide, ⟨('A', "a.png"), by decide, by decide⟩, h.1, h.2⟩

theorem lookup_append_single (l : List (ℕ × Glyph)) (k : ℕ) (g : Glyph)
    (h : l.lookup k = none) : (l ++ [(k, g)]).lookup k = some g := by
  induction l with
  | nil => simp [List.lookup]
  | cons a t ih =>
    obtain ⟨ak, av⟩ := a
    by_cases hk : ak = k
    · subst hk
      simp [List.lookup] at h
    · simp only [List.cons_append, List.lookup] at h ⊢
      rw [beq_false_of_ne (Ne.symm hk)] at h ⊢
      exact ih h

theorem createChar_fresh (font : Font) (cp : ℕ)
    (h : font.glyphs.lookup cp = none) :
    font.createChar cp =
      ({ font with glyphs := font.glyphs ++ [(cp, ⟨[], font.em, 0, 0⟩)] },
        (⟨[], font.em, 0, 0⟩ : Glyph)) := by
  unfold Font.createChar
  rw [h]

/-- C6 (amended): when the image file for a requested character is absent,
the importer still registers a fresh empty glyph under the code point of
the character (the glyph slot is created before the existence check), emits
the skip diagnostic, returns no glyph, and the per-character loop simply
continues with the remaining characters on the updated font. -/
theorem C6_missing_image (env : Env) (cfg : Config) (font : Font) (char : Char)
    (image_name : String) (rest : List (Char × String))
    (h : env.fileExists (imagePath cfg image_name) = false)
    (hfresh : font.glyphs.lookup char.toNat = none) :
    (import_and_trace_glyph env font char (imagePath cfg image_name)).2.1 = none ∧
    (import_and_trace_glyph env font char (imagePath cfg image_name)).2.2 =
      [notFoundMsg char] ∧
    (import_and_trace_glyph env font char (imagePath cfg image_name)).1.glyphs.lookup
        char.toNat = some ⟨[], font.em, 0, 0⟩ ∧
    processGlyphs env cfg font ((char, image_name) :: rest) =
      processGlyphs env cfg
        (import_and_trace_glyph env font char (imagePath cfg image_name)).1 rest := by
  have himp := import_missing env font char (imagePath cfg image_name) h
  have hcc := createChar_fresh font char.toNat hfresh
  refine ⟨by rw [himp], by rw [himp], ?_, ?_⟩
  · rw [himp, hcc]
    exact lookup_append_single font.glyphs char.toNat _ hfresh
  · rw [himp]
    exact processGlyphs_cons_missing env cfg font char image_name rest h

/-- A configuration requesting one character with a valid alignment. -/
def cfg6 : Config :=
  { fontname := "n", fullname := "n", familyname := "n",
    scaling_factor := 1, alignment := "bottom", vertical_offset := 0,
    common_image_path := "imgs", sfd_path := "out.sfd", ttf_path := "out.ttf",
    glyphsSection := [('A', "a.png")] }

/-- An environment in which no image path exists. -/
def envNone : Env := ⟨fun _ => false, fun _ => []⟩

/-- C6 counterexample: with the image for the character A absent, the run
completes and writes both output files, yet a glyph (an empty one) IS
registered under code point 65 in the final font, because the glyph slot is
created before the file-existence check. -/
theorem C6_counterexample :
    filesWritten (runMain envNone cfg6) = ["out.sfd", "out.ttf"] ∧
    registeredGlyph (runMain envNone cfg6) 65 = some ⟨[], 1000, 0, 0⟩ := by
  constructor <;> rfl

/-- C6 witness: the concrete importer call for the character A with an
absent image registers the empty glyph, diagnoses, returns no glyph, and
the loop continues. -/
theorem C6_witness :
    envNone.fileExists (imagePath cfg6 "a.png") = false ∧
    font0.glyphs.lookup ('A').toNat = none ∧
    (import_and_trace_glyph envNone font0 'A' (imagePath cfg6 "a.png")).2.1 = none ∧
    (import_and_trace_glyph envNone font0 'A' (imagePath cfg6 "a.png")).2.2 =
      [notFoundMsg 'A'] ∧
    (import_and_trace_glyph envNone font0 'A' (imagePath cfg6 "a.png")).1.glyphs.lookup
        ('A').toNat = some ⟨[], font0.em, 0, 0⟩ ∧
    processGlyphs envNone cfg6 font0 (('A', "a.png") :: []) =
      processGlyphs envNone cfg6
        (import_and_trace_glyph envNone font0 'A' (imagePath cfg6 "a.png")).1 [] := by
  obtain ⟨h1, h2, h3, h4⟩ := C6_missing_image envNone cfg6 font0 'A' "a.png" [] rfl rfl
  exact ⟨rfl, rfl, h1, h2, h3, h4⟩

end CreatFont
